import Mathlib

/-!
Verification of the Quant_Crypt_SIH repository: a quantum-email system with
a BB84 QKD simulator, a key manager with expiry/usage limits, a four-level
encryption engine, and a JavaScript email client.  The client code is
embedded from the shipped JavaScript; the Python core (QKD simulator, key
manager, encryption engine) is not part of the shipped sources, so those
components are modelled from the specification.
-/

namespace QuantCrypt

/-! ## Email client model (from the JavaScript client, second script version) -/

/-- An email record as held in `state.emails` by the JavaScript client. -/
structure Email where
  id : Nat
  sender : String
  subject : String
  time : String
  read : Bool
  decrypted : Bool
  folder : String
  security : String
  deriving Repr, DecidableEq

/-- Reply of the backend `/api/list` endpoint: a status string and, on
success, the fetched inbox emails. -/
structure ListReply where
  status : String
  emails : List Email
  deriving Repr

/-- Reply of the backend `/api/decrypt` endpoint. -/
structure DecryptReply where
  status : String
  error : String
  subject : String
  sender : String
  key_id : String
  content : String
  deriving Repr

/-- What `openEmail` writes into the detail pane. -/
inductive Display where
  | alreadyDecrypted
  | content (subject sender keyId body : String)
  | failed (msg : String)
  deriving Repr, DecidableEq

/-- Result of one `openEmail` call: the updated email record, whether a
decrypt request was issued to the backend, and what is displayed. -/
structure OpenResult where
  email : Email
  requestIssued : Bool
  display : Display
  deriving Repr

/-- The `openEmail` handler of the second script version: if the email was
already decrypted it shows the one-time-key reuse warning and returns
without contacting the backend; otherwise it issues a decrypt request, and
on a success reply shows the plaintext and marks the record decrypted and
read, while on any other reply it shows a failure message and leaves the
record unchanged. -/
def openEmail (email : Email) (reply : DecryptReply) : OpenResult :=
  if email.decrypted then
    { email := email, requestIssued := false, display := .alreadyDecrypted }
  else if reply.status = "success" then
    { email := { email with decrypted := true, read := true },
      requestIssued := true,
      display := .content reply.subject reply.sender reply.key_id reply.content }
  else
    { email := email, requestIssued := true,
      display := .failed (if reply.error = "" then "Decryption failed" else reply.error) }

/-- The `refreshInbox` function: on a success reply it drops every email
whose folder is `"inbox"` and appends the fetched emails, each stored with
`folder := "inbox"`, `read := false`, `decrypted := false`; on any other
reply the list is unchanged. -/
def refreshInbox (emails : List Email) (reply : ListReply) : List Email :=
  if reply.status = "success" then
    emails.filter (fun m => m.folder ≠ "inbox") ++
      reply.emails.map (fun e => { e with folder := "inbox", read := false, decrypted := false })
  else
    emails

/-- The compose form fields read by the send handler. -/
structure ComposeForm where
  recipient : String
  subject : String
  body : String
  security : String
  deriving Repr, DecidableEq

/-- Reply of the backend `/api/send` endpoint. -/
structure SendReply where
  status : String
  message_id : Nat
  error : String
  deriving Repr

/-- Client state touched by the send handler: the email list and the
compose form. -/
structure SendState where
  emails : List Email
  form : ComposeForm
  deriving Repr, DecidableEq

/-- The sent-mail record the handler builds on a success reply. -/
def sentMail (form : ComposeForm) (messageId : Nat) : Email :=
  { id := messageId, sender := "Me", subject := form.subject, time := "Just now",
    read := true, decrypted := false, folder := "sent", security := form.security }

/-- The cleared compose form after a successful send. -/
def clearedForm (form : ComposeForm) : ComposeForm :=
  { form with recipient := "", subject := "", body := "" }

/-- The send-button click handler of the second script version, modelled
after the backend reply is available: on a success reply it prepends the
sent-mail record to `state.emails` and clears the recipient, subject and
body fields; on any other reply it leaves both untouched.  (The handler
only reaches the backend when all three fields are non-empty; the caller
of this model supplies the reply of that request.) -/
def sendClick (st : SendState) (reply : SendReply) : SendState :=
  if st.form.recipient = "" ∨ st.form.subject = "" ∨ st.form.body = "" then
    st
  else if reply.status = "success" then
    { emails := sentMail st.form reply.message_id :: st.emails,
      form := clearedForm st.form }
  else
    st

/-! ## Key Manager (Key Store)

Modelled from the spec: the Python `KeyManager` implementation is not among
the shipped sources; only its documentation is.  The record shape and the
semantics of `store_key`, `get_key`, `delete_key` and
`cleanup_expired_keys` below follow the specification text. -/

/-- Modelled from the spec: a `QuantumKeyRecord` with key bytes, creation
and expiry instants, a usage counter and its limit, and string metadata. -/
structure QuantumKeyRecord where
  key : List Nat
  created_at : Nat
  expires_at : Nat
  usage_count : Nat
  max_usage : Nat
  metadata : List (String × String)
  deriving Repr, DecidableEq

/-- A key store: an association list from key ids to records. -/
abbrev KeyStore := List (String × QuantumKeyRecord)

/-- Errors of the key-manager operations. -/
inductive KeyError where
  | KeyNotFound
  | KeyExpired
  | KeyExhausted
  | KeyIdExists
  deriving Repr, DecidableEq

/-- Association-list lookup on a key store. -/
def KeyStore.find (store : KeyStore) (keyId : String) : Option QuantumKeyRecord :=
  match store with
  | [] => none
  | (k, r) :: rest => if k = keyId then some r else KeyStore.find rest keyId

/-- Modelled from the spec: `store_key` creates a record with
`created_at = now`, `expires_at = now + ttl`, `usage_count = 0`; it fails
when the key id already exists. -/
def store_key (store : KeyStore) (now : Nat) (key : List Nat) (keyId : String)
    (metadata : List (String × String)) (ttl : Nat) (maxUsage : Nat) :
    Except KeyError KeyStore :=
  match store.find keyId with
  | some _ => .error .KeyIdExists
  | none => .ok ((keyId,
      { key := key, created_at := now, expires_at := now + ttl,
        usage_count := 0, max_usage := maxUsage, metadata := metadata }) :: store)

/-- Replace the record stored under `keyId` with `r`. -/
def KeyStore.update (store : KeyStore) (keyId : String) (r : QuantumKeyRecord) : KeyStore :=
  match store with
  | [] => []
  | (k, old) :: rest =>
      if k = keyId then (k, r) :: rest else (k, old) :: KeyStore.update rest keyId r

/-- Modelled from the spec: `get_key` atomically checks expiry and the
usage limit, then increments `usage_count` and returns the key bytes; it
fails with `KeyNotFound`, `KeyExpired` or `KeyExhausted` and performs no
mutation on failure.  The returned pair is the call result together with
the store after the call, making mutation (or its absence) explicit. -/
def get_key (store : KeyStore) (now : Nat) (keyId : String) :
    Except KeyError (List Nat) × KeyStore :=
  match store.find keyId with
  | none => (.error .KeyNotFound, store)
  | some r =>
      if r.expires_at < now then (.error .KeyExpired, store)
      else if r.max_usage ≤ r.usage_count then (.error .KeyExhausted, store)
      else (.ok r.key, store.update keyId { r with usage_count := r.usage_count + 1 })

/-- Modelled from the spec: `delete_key` removes the record; deleting a
missing key is not an error (secure erasure of the bytes has no
observable counterpart in a pure model). -/
def delete_key (store : KeyStore) (keyId : String) : KeyStore :=
  store.filter (fun p => p.1 ≠ keyId)

/-- Modelled from the spec: `cleanup_expired_keys` sweeps all records,
deletes those past `expires_at`, and returns the count removed. -/
def cleanup_expired_keys (store : KeyStore) (now : Nat) : Nat × KeyStore :=
  let kept := store.filter (fun p => ¬ p.2.expires_at < now)
  (store.length - kept.length, kept)

/-- The key-store invariant: every record satisfies
`usage_count ≤ max_usage`. -/
def StoreWF (store : KeyStore) : Prop :=
  ∀ p ∈ store, p.2.usage_count ≤ p.2.max_usage

/-! ## Encryption Engine

Modelled from the spec: the Python `EncryptionEngine` is not among the
shipped sources.  The four security levels and the shapes of `encrypt` and
`decrypt` follow the specification; the AEAD cipher, the key-derivation
function, the hash used for key mixing and privacy amplification, and the
asymmetric scheme are concrete executable stand-ins satisfying the
contracts the spec states for them (keystream XOR plus tag; textbook
modular exponentiation for the asymmetric step). -/

/-- XOR a byte list against a cycled key starting at key offset `i`:
position `j` of the result is `b_j ^^^ key[(i + j) % key.length]`.  This is
the Basic-level cipher `ciphertext[i] = plaintext[i] XOR
quantum_key[i % key_length]`. -/
def xorCycle (key : List Nat) (i : Nat) : List Nat → List Nat
  | [] => []
  | b :: rest => (b ^^^ key.getD (i % key.length) 0) :: xorCycle key (i + 1) rest

/-- The closed enumeration of security levels. -/
inductive SecurityLevel where
  | basic
  | standard
  | high
  | maximum
  deriving Repr, DecidableEq

/-- Errors raised by the encryption engine. -/
inductive CryptoError where
  | UnsupportedSecurityLevel
  | MissingAsymmetricKey
  | AuthenticationFailure
  deriving Repr, DecidableEq

/-- One absorption step of the modelled hash/PRF: a multiply-add
accumulator kept below `2 ^ 32`. -/
def mixStep (acc b : Nat) : Nat := (acc * 131 + b + 17) % 4294967296

/-- Absorb a byte list into an accumulator seed. -/
def absorb (input : List Nat) (seed : Nat) : Nat := input.foldl mixStep seed

/-- Byte `i` of the modelled cipher keystream for a key and nonce. -/
def prfByte (key nonce : List Nat) (i : Nat) : Nat :=
  absorb (key ++ nonce) (mixStep 74747 i) % 256

/-- XOR a byte list against the keystream, starting at stream index `i`. -/
def streamXor (key nonce : List Nat) (i : Nat) : List Nat → List Nat
  | [] => []
  | b :: rest => (b ^^^ prfByte key nonce i) :: streamXor key nonce (i + 1) rest

/-- Authentication tag of the modelled AEAD over a key, nonce and
ciphertext. -/
def authTag (key nonce ct : List Nat) : Nat := absorb ct (absorb (key ++ nonce) 99991)

/-- Modelled AEAD encryption: keystream XOR plus an authentication tag. -/
def aeadEncrypt (key nonce pt : List Nat) : List Nat × Nat :=
  let ct := streamXor key nonce 0 pt
  (ct, authTag key nonce ct)

/-- Modelled AEAD decryption: verify the tag, then undo the keystream;
on tag mismatch return nothing (no partial plaintext). -/
def aeadDecrypt (key nonce ct : List Nat) (tag : Nat) : Option (List Nat) :=
  if authTag key nonce ct = tag then some (streamXor key nonce 0 ct) else none

/-- Modelled key-derivation function producing 32 bytes from the quantum
key. -/
def kdf32 (input : List Nat) : List Nat :=
  (List.range 32).map (fun i => absorb input (mixStep 31337 i) % 256)

/-- Modelled cryptographic hash producing 32 bytes, used for High-level
key mixing. -/
def hash32 (input : List Nat) : List Nat :=
  (List.range 32).map (fun i => absorb input (mixStep 5381 i) % 256)

/-- An asymmetric public key: exponent and modulus. -/
structure RSAPublicKey where
  e : Nat
  n : Nat
  deriving Repr, DecidableEq

/-- An asymmetric private key: exponent and modulus. -/
structure RSAPrivateKey where
  d : Nat
  n : Nat
  deriving Repr, DecidableEq

/-- Modular exponentiation, reducing at every step. -/
def powMod (b : Nat) : Nat → Nat → Nat
  | 0, n => 1 % n
  | e + 1, n => (b % n) * powMod b e n % n

/-- Modelled asymmetric encryption of a byte list: per-byte modular
exponentiation under the public key. -/
def rsaEncryptBytes (pub : RSAPublicKey) (bytes : List Nat) : List Nat :=
  bytes.map (fun b => powMod b pub.e pub.n)

/-- Modelled asymmetric decryption of a byte list under the private key. -/
def rsaDecryptBytes (priv : RSAPrivateKey) (bytes : List Nat) : List Nat :=
  bytes.map (fun b => powMod b priv.d priv.n)

/-- A matching asymmetric key pair: decryption inverts encryption on every
byte value. -/
abbrev RSAPair (pub : RSAPublicKey) (priv : RSAPrivateKey) : Prop :=
  ∀ b < 256, powMod (powMod b pub.e pub.n) priv.d priv.n = b

/-- Metadata attached to a ciphertext, mirroring the wire format: numeric
security level, algorithm tag, nonce, key-mixing flag, the mixing entropy
for High, the asymmetrically encrypted combined key for Maximum, and the
authentication tag. -/
structure EncMetadata where
  security_level : Nat
  algorithm : String
  nonce : List Nat
  key_mixing : Bool
  entropy : Option (List Nat)
  encrypted_key : Option (List Nat)
  auth_tag : Nat
  deriving Repr, DecidableEq

/-- The fresh randomness drawn during one `encrypt` call: the AEAD nonce,
the High-level mixing entropy, and the Maximum-level ephemeral key. -/
structure FreshRandom where
  nonce : List Nat
  entropy : List Nat
  ephemeral : List Nat
  deriving Repr, DecidableEq

/-- Modelled from the spec: `encrypt(plaintext, quantum_key, level,
recipient_public_key)`.  Basic XORs the plaintext against the cycled
quantum key; Standard derives a 32-byte key and AEAD-encrypts under a
fresh nonce; High mixes fresh entropy into the quantum key (XOR then
hash) before AEAD; Maximum XOR-combines a fresh ephemeral key with the
quantum key, asymmetrically encrypts the combined key under the recipient
public key, and AEAD-encrypts under the combined key, failing with
`MissingAsymmetricKey` when no public key is supplied. -/
def encrypt (pt qk : List Nat) (level : SecurityLevel) (rng : FreshRandom)
    (pub : Option RSAPublicKey) : Except CryptoError (List Nat × EncMetadata) :=
  match level with
  | .basic =>
      .ok (xorCycle qk 0 pt,
        { security_level := 1, algorithm := "XOR-OTP", nonce := [], key_mixing := false,
          entropy := none, encrypted_key := none, auth_tag := 0 })
  | .standard =>
      let key := kdf32 qk
      let p := aeadEncrypt key rng.nonce pt
      .ok (p.1,
        { security_level := 2, algorithm := "AES-256-GCM", nonce := rng.nonce,
          key_mixing := false, entropy := none, encrypted_key := none, auth_tag := p.2 })
  | .high =>
      let finalKey := hash32 (List.zipWith HXor.hXor qk rng.entropy)
      let p := aeadEncrypt finalKey rng.nonce pt
      .ok (p.1,
        { security_level := 3, algorithm := "ChaCha20-Poly1305", nonce := rng.nonce,
          key_mixing := true, entropy := some rng.entropy, encrypted_key := none,
          auth_tag := p.2 })
  | .maximum =>
      match pub with
      | none => .error .MissingAsymmetricKey
      | some pk =>
          let combined := List.zipWith HXor.hXor rng.ephemeral qk
          let p := aeadEncrypt combined rng.nonce pt
          .ok (p.1,
            { security_level := 4, algorithm := "RSA-2048+AES-256-GCM", nonce := rng.nonce,
              key_mixing := true, entropy := none,
              encrypted_key := some (rsaEncryptBytes pk combined), auth_tag := p.2 })

/-- Modelled from the spec: `decrypt(ciphertext, quantum_key, metadata,
private_key)` reverses the scheme selected by the metadata level tag,
failing with `UnsupportedSecurityLevel` on an unknown tag,
`MissingAsymmetricKey` when level 4 lacks the private key or the
encrypted combined key, and `AuthenticationFailure` on tag mismatch. -/
def decrypt (ct qk : List Nat) (md : EncMetadata) (priv : Option RSAPrivateKey) :
    Except CryptoError (List Nat) :=
  if md.security_level = 1 then
    .ok (xorCycle qk 0 ct)
  else if md.security_level = 2 then
    match aeadDecrypt (kdf32 qk) md.nonce ct md.auth_tag with
    | some pt => .ok pt
    | none => .error .AuthenticationFailure
  else if md.security_level = 3 then
    match md.entropy with
    | none => .error .AuthenticationFailure
    | some ent =>
        match aeadDecrypt (hash32 (List.zipWith HXor.hXor qk ent)) md.nonce ct md.auth_tag with
        | some pt => .ok pt
        | none => .error .AuthenticationFailure
  else if md.security_level = 4 then
    match priv, md.encrypted_key with
    | none, _ => .error .MissingAsymmetricKey
    | some _, none => .error .MissingAsymmetricKey
    | some sk, some encKey =>
        match aeadDecrypt (rsaDecryptBytes sk encKey) md.nonce ct md.auth_tag with
        | some pt => .ok pt
        | none => .error .AuthenticationFailure
  else
    .error .UnsupportedSecurityLevel

/-! ## Quantum Channel Simulator (BB84)

Modelled from the spec: the Python BB84 simulator is not among the shipped
sources.  Randomness is modelled as an explicit input tape: the sender
bits and bases, the receiver bases, the receiver guesses used where bases
mismatch, and the positions picked for the error-estimation sample. -/

/-- The random tape feeding one BB84 exchange.  `noise` marks the
positions where the channel (or an intercept-resend eavesdropper) flips
the receiver measurement, which is what makes a non-zero QBER possible. -/
structure BB84Input where
  aliceBits : List Bool
  aliceBases : List Bool
  bobBases : List Bool
  bobGuesses : List Bool
  noise : List Bool
  samplePick : List Nat
  deriving Repr, DecidableEq

/-- Configuration of one exchange: requested key length in bits, sample
size for error estimation, and the QBER abort threshold as a fraction. -/
structure QKDConfig where
  keyLengthBits : Nat
  sampleSize : Nat
  thresholdNum : Nat
  thresholdDen : Nat
  deriving Repr, DecidableEq

/-- The default configuration: 11% threshold, 50-bit sample. -/
def defaultQKDConfig (keyLengthBits : Nat) : QKDConfig :=
  { keyLengthBits := keyLengthBits, sampleSize := 50, thresholdNum := 11, thresholdDen := 100 }

/-- Errors of `establish_key_pair`: a QBER protocol abort or insufficient
sifted material.  Neither constructor carries key or bit material. -/
inductive QKDError where
  | QKDAbort
  | InsufficientMaterial
  deriving Repr, DecidableEq

/-- Modelled from the spec: simulate the receiver measurement.  Where the
bases match the receiver bit equals the sender bit; where they mismatch it
is the receiver random guess; a flagged noise position flips the measured
bit (channel noise or an intercept-resend eavesdropper). -/
def measureBob : List Bool → List Bool → List Bool → List Bool → List Bool → List Bool
  | a :: as, ab :: abs, bb :: bbs, g :: gs, nz :: nzs =>
      (xor (if ab = bb then a else g) nz) :: measureBob as abs bbs gs nzs
  | _, _, _, _, _ => []

/-- Positions where the two basis sequences agree (the sifted index set). -/
def matchingPositions (aliceBases bobBases : List Bool) : List Nat :=
  (List.range aliceBases.length).filter
    (fun i => aliceBases.getD i false == bobBases.getD i false)

/-- The sender sifted bits of an exchange. -/
def aliceSifted (input : BB84Input) : List Bool :=
  (matchingPositions input.aliceBases input.bobBases).map (input.aliceBits.getD · false)

/-- The receiver sifted bits of an exchange. -/
def bobSifted (input : BB84Input) : List Bool :=
  (matchingPositions input.aliceBases input.bobBases).map
    ((measureBob input.aliceBits input.aliceBases input.bobBases input.bobGuesses
        input.noise).getD · false)

/-- The error-estimation sample: indices into the sifted sequence, drawn
from the tape, kept in range, made distinct, limited to the sample size. -/
def sampleIndices (cfg : QKDConfig) (input : BB84Input) : List Nat :=
  ((input.samplePick.filter (· < (aliceSifted input).length)).dedup).take cfg.sampleSize

/-- Number of mismatches between sender and receiver on the sample. -/
def sampleMismatches (cfg : QKDConfig) (input : BB84Input) : Nat :=
  ((sampleIndices cfg input).filter
    (fun i => ¬ (aliceSifted input).getD i false == (bobSifted input).getD i false)).length

/-- The measured QBER exceeds the configured threshold:
`mismatches / sampleSize > thresholdNum / thresholdDen`, in cleared form. -/
def qberExceedsThreshold (cfg : QKDConfig) (input : BB84Input) : Prop :=
  cfg.thresholdNum * (sampleIndices cfg input).length <
    sampleMismatches cfg input * cfg.thresholdDen

instance (cfg : QKDConfig) (input : BB84Input) : Decidable (qberExceedsThreshold cfg input) :=
  inferInstanceAs (Decidable (_ < _))

/-- Sifted positions that feed the final key: all sifted indices except
those spent on the error-estimation sample. -/
def keyPositions (cfg : QKDConfig) (input : BB84Input) : List Nat :=
  (List.range (aliceSifted input).length).filter (fun i => ¬ i ∈ sampleIndices cfg input)

/-- The sifted bits remaining after sample removal. -/
def remainingBits (cfg : QKDConfig) (input : BB84Input) : List Bool :=
  (keyPositions cfg input).map ((aliceSifted input).getD · false)

/-- Modelled from the spec: privacy amplification compresses the remaining
bits through a hash into exactly `outLen` output bits. -/
def privacy_amplification (bits : List Bool) (outLen : Nat) : List Bool :=
  (List.range outLen).map
    (fun i => absorb (bits.map (fun b => if b then 1 else 0)) (mixStep 2718 i) % 2 = 1)

/-- Modelled from the spec: `establish_key_pair` runs measurement,
sifting, error estimation, the QBER abort check, the insufficient-material
check, and privacy amplification, returning the key bits with a fresh key
id, or a hard failure carrying no bit material. -/
def establish_key_pair (cfg : QKDConfig) (input : BB84Input) (keyId : String) :
    Except QKDError (List Bool × String) :=
  if qberExceedsThreshold cfg input then
    .error .QKDAbort
  else if (remainingBits cfg input).length < cfg.keyLengthBits then
    .error .InsufficientMaterial
  else
    .ok (privacy_amplification (remainingBits cfg input) cfg.keyLengthBits, keyId)

/-- Folder filter of the first `renderEmailList` version:
`email.folder === state.currentFolder || state.currentFolder === "inbox"`. -/
def folderMatchFirst (emailFolder currentFolder : String) : Bool :=
  emailFolder = currentFolder ∨ currentFolder = "inbox"

/-- Folder filter of the second `renderEmailList` version:
`state.currentFolder === "inbox" ? email.folder === "inbox" : email.folder === state.currentFolder`. -/
def folderMatchSecond (emailFolder currentFolder : String) : Bool :=
  if currentFolder = "inbox" then emailFolder = "inbox" else emailFolder = currentFolder

/-! ## Concrete evaluation inputs

Small concrete values used to evaluate the model on explicit runs. -/

/-- A one-time key store holding one freshly stored record. -/
def wStore1 : KeyStore :=
  [("k1", { key := [1, 2, 3], created_at := 0, expires_at := 100, usage_count := 0,
            max_usage := 1, metadata := [] })]

/-- An expired record with zero usage. -/
def wExpRec : QuantumKeyRecord :=
  { key := [4], created_at := 0, expires_at := 10, usage_count := 0, max_usage := 1,
    metadata := [] }

/-- A store holding only the expired record. -/
def wExpStore : KeyStore := [("k2", wExpRec)]

/-- A freshly fetched, not yet decrypted inbox email. -/
def wEmailNew : Email :=
  { id := 1, sender := "alice", subject := "hi", time := "now", read := false,
    decrypted := false, folder := "inbox", security := "2" }

/-- A successful decrypt reply. -/
def wReplyOk : DecryptReply :=
  { status := "success", error := "", subject := "hi", sender := "alice",
    key_id := "k1", content := "body" }

/-- A failed decrypt reply. -/
def wReplyFail : DecryptReply :=
  { status := "error", error := "nope", subject := "", sender := "", key_id := "",
    content := "" }

/-- A previously decrypted inbox email. -/
def wInboxOld : Email :=
  { id := 5, sender := "bob", subject := "old", time := "y", read := true,
    decrypted := true, folder := "inbox", security := "1" }

/-- A sent email unaffected by inbox refreshes. -/
def wSentOld : Email :=
  { id := 6, sender := "Me", subject := "s", time := "y", read := true,
    decrypted := false, folder := "sent", security := "1" }

/-- A backend email as fetched from the list endpoint. -/
def wFetched : Email :=
  { id := 7, sender := "carol", subject := "new", time := "n", read := true,
    decrypted := true, folder := "backend", security := "3" }

/-- A successful list reply carrying one email. -/
def wListReply : ListReply := { status := "success", emails := [wFetched] }

/-- A filled compose form. -/
def wForm : ComposeForm := { recipient := "bob@x", subject := "s", body := "b", security := "2" }

/-- A client state with one sent mail and a filled form. -/
def wSendState : SendState := { emails := [wSentOld], form := wForm }

/-- A successful send reply. -/
def wSendReplyOk : SendReply := { status := "success", message_id := 42, error := "" }

/-- A failed send reply. -/
def wSendReplyFail : SendReply := { status := "error", message_id := 0, error := "boom" }

/-- A plaintext byte list. -/
def wPt : List Nat := [72, 105, 33]

/-- A quantum key byte list. -/
def wQk : List Nat := [7, 200, 33, 90]

/-- Concrete fresh randomness for one encryption. -/
def wRng : FreshRandom := { nonce := [1, 2, 3], entropy := [9, 8, 7], ephemeral := [5, 6] }

/-- A toy public key: exponent 3 modulo 267. -/
def wPub : RSAPublicKey := { e := 3, n := 267 }

/-- The matching toy private key: 3 * 59 = 177 and 177 mod lambda(267) = 1. -/
def wPriv : RSAPrivateKey := { d := 59, n := 267 }

/-- Ciphertext and metadata of one concrete Maximum-level encryption. -/
def wCtMd : List Nat × EncMetadata :=
  match encrypt wPt wQk SecurityLevel.maximum wRng (some wPub) with
  | .ok p => p
  | .error _ =>
      ([], { security_level := 0, algorithm := "", nonce := [], key_mixing := false,
             entropy := none, encrypted_key := none, auth_tag := 0 })

/-- A BB84 tape whose two noise flips force a 100% sample QBER. -/
def wAbortInput : BB84Input :=
  { aliceBits := [true, true], aliceBases := [false, false], bobBases := [false, false],
    bobGuesses := [false, false], noise := [true, true], samplePick := [0, 1] }

/-- The default configuration for a 1-bit key. -/
def wAbortCfg : QKDConfig := defaultQKDConfig 1

/-- A clean three-pulse BB84 tape with no noise and matching bases. -/
def wCleanInput : BB84Input :=
  { aliceBits := [true, true, true], aliceBases := [false, false, false],
    bobBases := [false, false, false], bobGuesses := [false, false, false],
    noise := [false, false, false], samplePick := [0] }

/-- A configuration the clean tape can satisfy. -/
def wOkCfg : QKDConfig :=
  { keyLengthBits := 1, sampleSize := 1, thresholdNum := 11, thresholdDen := 100 }

/-- A configuration requesting more bits than the clean tape yields. -/
def wShortCfg : QKDConfig :=
  { keyLengthBits := 5, sampleSize := 1, thresholdNum := 11, thresholdDen := 100 }

/-- The key produced by the clean run. -/
def wOkKey : List Bool := privacy_amplification (remainingBits wOkCfg wCleanInput) 1

/-! ## Helper lemmas -/

/-- Cycled XOR is an involution at every key offset. -/
theorem xorCycle_involution (key : List Nat) (l : List Nat) :
    ∀ i, xorCycle key i (xorCycle key i l) = l := by
  induction l with
  | nil => intro i; rfl
  | cons b rest ih => intro i; simp [xorCycle, Nat.xor_cancel_right, ih]

/-- Cycled XOR preserves length. -/
theorem xorCycle_length (key : List Nat) (l : List Nat) :
    ∀ i, (xorCycle key i l).length = l.length := by
  induction l with
  | nil => intro i; rfl
  | cons b rest ih => intro i; simp [xorCycle, ih]

/-- Byte `j` of the cycled XOR at offset `i` is the input byte XORed with
key byte `(i + j) % key.length`. -/
theorem xorCycle_getD (key : List Nat) (l : List Nat) :
    ∀ i j, j < l.length →
      (xorCycle key i l).getD j 0 = l.getD j 0 ^^^ key.getD ((i + j) % key.length) 0 := by
  induction l with
  | nil => intro i j h; exact absurd h (Nat.not_lt_zero j)
  | cons b rest ih =>
      intro i j h
      cases j with
      | zero => simp [xorCycle]
      | succ j2 =>
          have hj : j2 < rest.length := by
            simpa [Nat.succ_lt_succ_iff] using h
          have step := ih (i + 1) j2 hj
          have harith : i + 1 + j2 = i + (j2 + 1) := by omega
          simp only [xorCycle, List.getD_cons_succ]
          rw [step, harith]

/-- The keystream XOR is an involution at every stream index. -/
theorem streamXor_involution (key nonce : List Nat) (l : List Nat) :
    ∀ i, streamXor key nonce i (streamXor key nonce i l) = l := by
  induction l with
  | nil => intro i; rfl
  | cons b rest ih => intro i; simp [streamXor, Nat.xor_cancel_right, ih]

/-- The modelled AEAD decryption inverts the modelled AEAD encryption. -/
theorem aead_round_trip (key nonce pt : List Nat) :
    aeadDecrypt key nonce (aeadEncrypt key nonce pt).1 (aeadEncrypt key nonce pt).2 = some pt := by
  simp [aeadEncrypt, aeadDecrypt, streamXor_involution]

/-- The XOR of two byte values is a byte value. -/
theorem byte_xor_lt {a b : Nat} (ha : a < 256) (hb : b < 256) : a ^^^ b < 256 := by
  have h256 : (256 : Nat) = 2 ^ 8 := by norm_num
  rw [h256] at ha hb ⊢
  exact Nat.bitwise_lt ha hb

/-- XOR-combining two byte lists yields byte values. -/
theorem zipWith_xor_bytes_lt :
    ∀ (xs ys : List Nat), (∀ b ∈ xs, b < 256) → (∀ b ∈ ys, b < 256) →
      ∀ b ∈ List.zipWith HXor.hXor xs ys, b < 256 := by
  intro xs
  induction xs with
  | nil => intro ys _ _ b hb; simp at hb
  | cons x xs ih =>
      intro ys hx hy b hb
      cases ys with
      | nil => simp at hb
      | cons y ys =>
          simp only [List.zipWith_cons_cons, List.mem_cons] at hb
          rcases hb with h | h
          · subst h
            exact byte_xor_lt (hx x (List.mem_cons_self x xs)) (hy y (List.mem_cons_self y ys))
          · exact ih ys (fun c hc => hx c (List.mem_cons_of_mem x hc))
              (fun c hc => hy c (List.mem_cons_of_mem y hc)) b h

/-- Under a matching key pair, asymmetric decryption of a byte list
inverts asymmetric encryption. -/
theorem rsa_list_round_trip (pub : RSAPublicKey) (priv : RSAPrivateKey)
    (h : RSAPair pub priv) :
    ∀ (l : List Nat), (∀ b ∈ l, b < 256) →
      rsaDecryptBytes priv (rsaEncryptBytes pub l) = l := by
  intro l
  induction l with
  | nil => intro _; rfl
  | cons b rest ih =>
      intro hl
      simp only [rsaEncryptBytes, rsaDecryptBytes, List.map_cons, List.cons.injEq]
      constructor
      · exact h b (hl b (List.mem_cons_self b rest))
      · simpa [rsaEncryptBytes, rsaDecryptBytes] using
          ih (fun c hc => hl c (List.mem_cons_of_mem b hc))

/-- A successful association lookup exhibits its pair as a member. -/
theorem find_eq_some_mem :
    ∀ (store : KeyStore) (k : String) (r : QuantumKeyRecord),
      store.find k = some r → (k, r) ∈ store := by
  intro store
  induction store with
  | nil => intro k r h; simp [KeyStore.find] at h
  | cons p rest ih =>
      obtain ⟨k1, r1⟩ := p
      intro k r h
      by_cases hk : k1 = k
      · subst hk
        simp [KeyStore.find] at h
        subst h
        exact List.mem_cons_self _ _
      · simp [KeyStore.find, hk] at h
        exact List.mem_cons_of_mem _ (ih k r h)

/-- Every member of an updated store carries either the new record or a
pair of the original store. -/
theorem mem_update_cases :
    ∀ (store : KeyStore) (k : String) (rnew : QuantumKeyRecord) (p : String × QuantumKeyRecord),
      p ∈ KeyStore.update store k rnew → p.2 = rnew ∨ p ∈ store := by
  intro store
  induction store with
  | nil => intro k rnew p h; simp [KeyStore.update] at h
  | cons q rest ih =>
      obtain ⟨k1, r1⟩ := q
      intro k rnew p h
      by_cases hk : k1 = k
      · simp [KeyStore.update, hk] at h
        rcases h with h | h
        · subst h; left; rfl
        · right; exact List.mem_cons_of_mem _ h
      · simp [KeyStore.update, hk] at h
        rcases h with h | h
        · subst h; right; exact List.mem_cons_self _ _
        · rcases ih k rnew p h with h2 | h2
          · left; exact h2
          · right; exact List.mem_cons_of_mem _ h2

/-- Reading a live record at the head of the store returns its key bytes
and increments only its usage counter. -/
theorem get_key_cons_fresh (store : KeyStore) (keyId : String) (r : QuantumKeyRecord)
    (now : Nat) (hexp : ¬ r.expires_at < now) (huse : ¬ r.max_usage ≤ r.usage_count) :
    get_key ((keyId, r) :: store) now keyId =
      (Except.ok r.key, (keyId, { r with usage_count := r.usage_count + 1 }) :: store) := by
  simp [get_key, KeyStore.find, KeyStore.update, hexp, huse]

/-- Reading a live but fully used record at the head of the store fails
with `KeyExhausted` and leaves the store unchanged. -/
theorem get_key_cons_exhausted (store : KeyStore) (keyId : String) (r : QuantumKeyRecord)
    (now : Nat) (hexp : ¬ r.expires_at < now) (huse : r.max_usage ≤ r.usage_count) :
    get_key ((keyId, r) :: store) now keyId =
      (Except.error KeyError.KeyExhausted, (keyId, r) :: store) := by
  simp [get_key, KeyStore.find, hexp, huse]

/-- A failing `get_key` performs no mutation: the returned store is the
input store. -/
theorem get_key_no_mutation_on_failure (s : KeyStore) (n : Nat) (kid : String) (err : KeyError)
    (h : (get_key s n kid).1 = Except.error err) : (get_key s n kid).2 = s := by
  cases hf : KeyStore.find s kid with
  | none => simp [get_key, hf]
  | some r =>
      by_cases hexp : r.expires_at < n
      · simp [get_key, hf, hexp]
      · by_cases huse : r.max_usage ≤ r.usage_count
        · simp [get_key, hf, hexp, huse]
        · exfalso
          rw [get_key, hf] at h
          simp [hexp, huse] at h

/-- An undecrypted email always triggers a backend decrypt request when
opened. -/
theorem openEmail_requests_when_not_decrypted (e : Email) (r : DecryptReply)
    (h : e.decrypted = false) : (openEmail e r).requestIssued = true := by
  unfold openEmail
  rw [if_neg (by simp [h])]
  split <;> rfl

/-- Privacy amplification emits exactly the requested number of bits. -/
theorem privacy_amplification_length (bits : List Bool) (outLen : Nat) :
    (privacy_amplification bits outLen).length = outLen := by
  simp [privacy_amplification]

/-! ## Claim theorems -/

/-- C10 (counterexample): the two `renderEmailList` folder filters are not
equivalent.  For an email in folder `"sent"` while the current folder is
`"inbox"`, the first version displays the email and the second does not. -/
theorem folderMatch_versions_disagree :
    folderMatchFirst "sent" "inbox" = true ∧ folderMatchSecond "sent" "inbox" = false := by
  decide

/-- C10 (amended): the two `renderEmailList` folder filters agree on every
current folder other than `"inbox"`; when the current folder is `"inbox"`
the first version displays every email while the second displays exactly
the emails whose folder is `"inbox"`. -/
theorem folderMatch_versions_amended (ef cf : String) :
    (cf ≠ "inbox" → folderMatchFirst ef cf = folderMatchSecond ef cf) ∧
    (cf = "inbox" → folderMatchFirst ef cf = true ∧
      (folderMatchSecond ef cf = true ↔ ef = "inbox")) := by
  constructor
  · intro h
    simp [folderMatchFirst, folderMatchSecond, h]
  · intro h
    subst h
    simp [folderMatchFirst, folderMatchSecond]

/-- Witness: the amended C10 statement evaluated at the folders `"drafts"`
against `"sent"` (agreement away from the inbox) and `"sent"` against
`"inbox"` (the first filter shows everything). -/
theorem folderMatch_versions_amended_witness :
    folderMatchFirst "drafts" "sent" = folderMatchSecond "drafts" "sent" ∧
    folderMatchFirst "sent" "inbox" = true :=
  ⟨(folderMatch_versions_amended "drafts" "sent").1 (by decide),
    ((folderMatch_versions_amended "sent" "inbox").2 rfl).1⟩

/-- C6: for every plaintext and non-empty key, Basic-level encryption has
output length equal to the plaintext length and is computed bytewise as
`ciphertext[i] = plaintext[i] XOR key[i % key.length]`, and the engine
dispatch at the Basic level produces exactly this ciphertext. -/
theorem basic_encrypt_xor_cycle_spec (pt key : List Nat) (hkey : key ≠ []) :
    (xorCycle key 0 pt).length = pt.length ∧
    (∀ i, i < pt.length →
      (xorCycle key 0 pt).getD i 0 = pt.getD i 0 ^^^ key.getD (i % key.length) 0) ∧
    (∀ (rng : FreshRandom) (pub : Option RSAPublicKey) (ct : List Nat) (md : EncMetadata),
      encrypt pt key SecurityLevel.basic rng pub = Except.ok (ct, md) →
      ct = xorCycle key 0 pt) := by
  refine ⟨xorCycle_length key pt 0, ?_, ?_⟩
  · intro i hi
    have h := xorCycle_getD key pt 0 i hi
    simpa using h
  · intro rng pub ct md h
    simp [encrypt] at h
    exact h.1.symm

/-- Witness: C6 evaluated at the plaintext `[1, 2, 3]` and the two-byte
key `[7, 9]`, which the cipher cycles. -/
theorem basic_encrypt_xor_cycle_spec_witness :
    (xorCycle [7, 9] 0 [1, 2, 3]).length = 3 ∧
    (xorCycle [7, 9] 0 [1, 2, 3]).getD 2 0 = 3 ^^^ 7 := by
  have T := basic_encrypt_xor_cycle_spec [1, 2, 3] [7, 9] (by decide)
  refine ⟨T.1, ?_⟩
  have h := T.2.1 2 (by decide)
  simpa using h

/-- C3: whenever the measured QBER exceeds the configured threshold,
`establish_key_pair` returns the bare protocol-abort outcome — a value
that carries no key and no intermediate bit material, so nothing partial
escapes the aborted exchange. -/
theorem qber_abort_all_or_nothing (cfg : QKDConfig) (input : BB84Input) (keyId : String)
    (h : qberExceedsThreshold cfg input) :
    establish_key_pair cfg input keyId = Except.error QKDError.QKDAbort := by
  unfold establish_key_pair
  rw [if_pos h]

/-- Witness: C3 evaluated on the two-pulse tape whose noise flips force a
100% sample QBER under the default 11% threshold. -/
theorem qber_abort_all_or_nothing_witness :
    qberExceedsThreshold wAbortCfg wAbortInput ∧
    establish_key_pair wAbortCfg wAbortInput "kid-1" = Except.error QKDError.QKDAbort :=
  ⟨by decide, qber_abort_all_or_nothing wAbortCfg wAbortInput "kid-1" (by decide)⟩

/-- C4: every position sampled for error estimation is excluded from the
positions feeding the final key, and any successful run derives its key by
privacy amplification of exactly the remaining (sample-free) bits. -/
theorem sample_disjoint_from_final_key (cfg : QKDConfig) (input : BB84Input) (i : Nat)
    (h : i ∈ sampleIndices cfg input) :
    ¬ i ∈ keyPositions cfg input ∧
    (∀ (keyBits : List Bool) (kid kid2 : String),
      establish_key_pair cfg input kid = Except.ok (keyBits, kid2) →
      keyBits = privacy_amplification (remainingBits cfg input) cfg.keyLengthBits) := by
  constructor
  · intro hmem
    have h2 := (List.mem_filter.1 hmem).2
    simp at h2
    exact h2 h
  · intro keyBits kid kid2 hok
    unfold establish_key_pair at hok
    by_cases hq : qberExceedsThreshold cfg input
    · rw [if_pos hq] at hok
      simp at hok
    · rw [if_neg hq] at hok
      by_cases hlen : (remainingBits cfg input).length < cfg.keyLengthBits
      · rw [if_pos hlen] at hok
        simp at hok
      · rw [if_neg hlen] at hok
        simp at hok
        exact hok.1.symm

/-- Witness: C4 evaluated at sampled position 0 of the aborting tape. -/
theorem sample_disjoint_from_final_key_witness :
    0 ∈ sampleIndices wAbortCfg wAbortInput ∧ ¬ 0 ∈ keyPositions wAbortCfg wAbortInput :=
  ⟨by decide, (sample_disjoint_from_final_key wAbortCfg wAbortInput 0 (by decide)).1⟩

/-- C5: every successful `establish_key_pair` run returns exactly
`keyLengthBits` key bits, and when the material remaining after sample
removal is shorter than requested (and no QBER abort fired first), the
run fails with the insufficient-material error instead of returning a
short key. -/
theorem privacy_amplification_exact_length (cfg : QKDConfig) (input : BB84Input)
    (keyId : String) :
    (∀ (keyBits : List Bool) (kid2 : String),
      establish_key_pair cfg input keyId = Except.ok (keyBits, kid2) →
      keyBits.length = cfg.keyLengthBits) ∧
    (¬ qberExceedsThreshold cfg input →
      (remainingBits cfg input).length < cfg.keyLengthBits →
      establish_key_pair cfg input keyId = Except.error QKDError.InsufficientMaterial) := by
  constructor
  · intro keyBits kid2 hok
    unfold establish_key_pair at hok
    by_cases hq : qberExceedsThreshold cfg input
    · rw [if_pos hq] at hok
      simp at hok
    · rw [if_neg hq] at hok
      by_cases hlen : (remainingBits cfg input).length < cfg.keyLengthBits
      · rw [if_pos hlen] at hok
        simp at hok
      · rw [if_neg hlen] at hok
        simp at hok
        rw [← hok.1]
        exact privacy_amplification_length _ _
  · intro hq hlen
    unfold establish_key_pair
    rw [if_neg hq, if_pos hlen]

/-- Witness: C5 evaluated on the clean three-pulse tape — the successful
run yields a 1-bit key, and requesting 5 bits from the same tape fails
with the insufficient-material error. -/
theorem privacy_amplification_exact_length_witness :
    establish_key_pair wOkCfg wCleanInput "kid-2" = Except.ok (wOkKey, "kid-2") ∧
    wOkKey.length = 1 ∧
    establish_key_pair wShortCfg wCleanInput "kid-3" =
      Except.error QKDError.InsufficientMaterial := by
  refine ⟨rfl, ?_, ?_⟩
  · exact (privacy_amplification_exact_length wOkCfg wCleanInput "kid-2").1 wOkKey "kid-2" rfl
  · exact (privacy_amplification_exact_length wShortCfg wCleanInput "kid-3").2
      (by decide) (by decide)

/-- C8: a successful `refreshInbox` keeps exactly the emails outside the
inbox folder and replaces the inbox with the fetched emails, each stored
unread and undecrypted — so every inbox email after a refresh triggers a
fresh decrypt request when opened, and the one-time-decryption guard of
`openEmail` does not survive the refresh. -/
theorem refreshInbox_frame_effect (emails : List Email) (reply : ListReply)
    (r2 : DecryptReply) (h : reply.status = "success") :
    (∀ m : Email, m ∈ refreshInbox emails reply ↔
        ((m ∈ emails ∧ m.folder ≠ "inbox") ∨
          (∃ e, e ∈ reply.emails ∧
            m = { e with folder := "inbox", read := false, decrypted := false }))) ∧
    (∀ m : Email, m ∈ refreshInbox emails reply → m.folder = "inbox" →
        m.read = false ∧ m.decrypted = false ∧ (openEmail m r2).requestIssued = true) := by
  constructor
  · intro m
    unfold refreshInbox
    rw [if_pos h]
    simp only [List.mem_append, List.mem_filter, List.mem_map, decide_not,
      Bool.not_eq_eq_eq_not, Bool.not_true, decide_eq_false_iff_not]
    constructor
    · rintro (⟨hm, hf⟩ | ⟨e, he, heq⟩)
      · exact Or.inl ⟨hm, hf⟩
      · exact Or.inr ⟨e, he, heq.symm⟩
    · rintro (⟨hm, hf⟩ | ⟨e, he, heq⟩)
      · exact Or.inl ⟨hm, hf⟩
      · exact Or.inr ⟨e, he, heq.symm⟩
  · intro m hm hf
    unfold refreshInbox at hm
    rw [if_pos h] at hm
    rcases List.mem_append.1 hm with hm | hm
    · have h2 := (List.mem_filter.1 hm).2
      simp at h2
      exact absurd hf h2
    · obtain ⟨e, he, heq⟩ := List.mem_map.1 hm
      subst heq
      exact ⟨rfl, rfl, openEmail_requests_when_not_decrypted _ r2 rfl⟩

/-- Witness: C8 evaluated on a state holding a previously decrypted inbox
email and a sent email, refreshed with one fetched email — the stored
replacement is in the refreshed list and opening it issues a request. -/
theorem refreshInbox_frame_effect_witness :
    ({ wFetched with folder := "inbox", read := false, decrypted := false } ∈
        refreshInbox [wInboxOld, wSentOld] wListReply) ∧
    (openEmail { wFetched with folder := "inbox", read := false, decrypted := false }
        wReplyFail).requestIssued = true := by
  have T := refreshInbox_frame_effect [wInboxOld, wSentOld] wListReply wReplyFail rfl
  have hmem := (T.1 _).2 (Or.inr ⟨wFetched, by simp [wListReply], rfl⟩)
  exact ⟨hmem, (T.2 _ hmem rfl).2.2⟩

/-- C9: once the send handler has reached the backend (all form fields
non-empty), it prepends the sent-mail record — sender `"Me"`, folder
`"sent"`, read — and clears the compose form exactly when the reply status
is `"success"`; any other reply leaves the email list and the form
untouched. -/
theorem sendClick_success_iff_mutation (st : SendState) (reply : SendReply)
    (hr : st.form.recipient ≠ "") (hs : st.form.subject ≠ "") (hb : st.form.body ≠ "") :
    ((sendClick st reply = { emails := sentMail st.form reply.message_id :: st.emails,
                             form := clearedForm st.form }) ↔ reply.status = "success") ∧
    (reply.status ≠ "success" → sendClick st reply = st) ∧
    (sentMail st.form reply.message_id).sender = "Me" ∧
    (sentMail st.form reply.message_id).folder = "sent" ∧
    (sentMail st.form reply.message_id).read = true := by
  have hcond : ¬ (st.form.recipient = "" ∨ st.form.subject = "" ∨ st.form.body = "") := by
    push_neg
    exact ⟨hr, hs, hb⟩
  by_cases hst : reply.status = "success"
  · refine ⟨⟨fun _ => hst, fun _ => ?_⟩, fun hcontra => absurd hst hcontra, rfl, rfl, rfl⟩
    unfold sendClick
    rw [if_neg hcond, if_pos hst]
  · have hunch : sendClick st reply = st := by
      unfold sendClick
      rw [if_neg hcond, if_neg hst]
    refine ⟨⟨fun heq => ?_, fun hcontra => absurd hcontra hst⟩, fun _ => hunch, rfl, rfl, rfl⟩
    exfalso
    rw [hunch] at heq
    have hlen := congrArg (fun s => s.emails.length) heq
    simp at hlen

/-- Witness: C9 evaluated on a filled form against a success reply and a
failure reply. -/
theorem sendClick_success_iff_mutation_witness :
    sendClick wSendState wSendReplyOk =
      { emails := sentMail wForm 42 :: [wSentOld], form := clearedForm wForm } ∧
    sendClick wSendState wSendReplyFail = wSendState := by
  have TOK := sendClick_success_iff_mutation wSendState wSendReplyOk
    (by decide) (by decide) (by decide)
  have TFAIL := sendClick_success_iff_mutation wSendState wSendReplyFail
    (by decide) (by decide) (by decide)
  exact ⟨TOK.1.2 rfl, TFAIL.2.1 (by decide)⟩

/-- C7: `usage_count ≤ max_usage` holds for every record and is preserved
by every key-manager operation; a record found in the store is unreadable
— its `get_key` lookup fails — as soon as `now > expires_at` or
`usage_count = max_usage`; and a key whose TTL has elapsed fails
specifically with `KeyExpired` even when `usage_count = 0`. -/
theorem key_record_usage_invariant :
    (∀ (store : KeyStore) (now : Nat) (key : List Nat) (keyId : String)
        (metadata : List (String × String)) (ttl maxUsage : Nat) (store1 : KeyStore),
      StoreWF store → store_key store now key keyId metadata ttl maxUsage = Except.ok store1 →
      StoreWF store1) ∧
    (∀ (store : KeyStore) (now : Nat) (keyId : String),
      StoreWF store → StoreWF (get_key store now keyId).2) ∧
    (∀ (store : KeyStore) (keyId : String), StoreWF store → StoreWF (delete_key store keyId)) ∧
    (∀ (store : KeyStore) (now : Nat),
      StoreWF store → StoreWF (cleanup_expired_keys store now).2) ∧
    (∀ (store : KeyStore) (now : Nat) (keyId : String) (r : QuantumKeyRecord),
      KeyStore.find store keyId = some r →
      (r.expires_at < now ∨ r.usage_count = r.max_usage) →
      (get_key store now keyId).1 = Except.error KeyError.KeyExpired ∨
        (get_key store now keyId).1 = Except.error KeyError.KeyExhausted) ∧
    (∀ (store : KeyStore) (now : Nat) (keyId : String) (r : QuantumKeyRecord),
      KeyStore.find store keyId = some r → r.expires_at < now → r.usage_count = 0 →
      (get_key store now keyId).1 = Except.error KeyError.KeyExpired) := by
  refine ⟨?_, ?_, ?_, ?_, ?_, ?_⟩
  · intro store now key keyId metadata ttl maxUsage store1 hwf hok
    cases hfind : KeyStore.find store keyId with
    | some r0 =>
        rw [store_key, hfind] at hok
        simp at hok
    | none =>
        rw [store_key, hfind] at hok
        simp at hok
        subst hok
        intro p hp
        rcases List.mem_cons.1 hp with hp | hp
        · subst hp
          exact Nat.zero_le _
        · exact hwf p hp
  · intro store now keyId hwf
    cases hfind : KeyStore.find store keyId with
    | none => simpa [get_key, hfind] using hwf
    | some r =>
        by_cases hexp : r.expires_at < now
        · simpa [get_key, hfind, hexp] using hwf
        · by_cases huse : r.max_usage ≤ r.usage_count
          · simpa [get_key, hfind, hexp, huse] using hwf
          · simp only [get_key, hfind, if_neg hexp, if_neg huse]
            intro p hp
            rcases mem_update_cases store keyId _ p hp with hp2 | hp2
            · rw [hp2]
              simp
              omega
            · exact hwf p hp2
  · intro store keyId hwf p hp
    exact hwf p (List.mem_of_mem_filter hp)
  · intro store now hwf p hp
    exact hwf p (List.mem_of_mem_filter hp)
  · intro store now keyId r hfind hcond
    by_cases hexp : r.expires_at < now
    · left
      simp [get_key, hfind, hexp]
    · right
      rcases hcond with hcond | hcond
      · exact absurd hcond hexp
      · have huse : r.max_usage ≤ r.usage_count := le_of_eq hcond.symm
        simp [get_key, hfind, hexp, huse]
  · intro store now keyId r hfind hexp husage
    simp [get_key, hfind, hexp]

/-- Witness: C7 evaluated on the store holding one expired record with
zero usage — the lookup fails with `KeyExpired` — and on secure deletion
of that record. -/
theorem key_record_usage_invariant_witness :
    (get_key wExpStore 20 "k2").1 = Except.error KeyError.KeyExpired ∧
    StoreWF (delete_key wExpStore "k2") := by
  constructor
  · exact key_record_usage_invariant.2.2.2.2.2 wExpStore 20 "k2" wExpRec rfl (by decide) rfl
  · exact key_record_usage_invariant.2.2.1 wExpStore "k2" (by
      intro p hp
      simp [wExpStore] at hp
      subst hp
      decide)

/-- C1: a freshly stored one-time key (`max_usage = 1`) is consumable
exactly once: the first in-TTL `get_key` returns the key bytes and raises
`usage_count` to 1, the second fails with `KeyExhausted` without mutating
the store (and any failing `get_key` mutates nothing); at the client, a
successfully decrypted email is marked decrypted, and every later
`openEmail` on a decrypted email issues no decrypt request and displays
the one-time-key reuse notice. -/
theorem get_key_one_time_single_use
    (store store1 : KeyStore) (now now1 now2 : Nat) (keyId : String) (key : List Nat)
    (metadata : List (String × String)) (ttl : Nat)
    (hstore : store_key store now key keyId metadata ttl 1 = Except.ok store1)
    (h1 : now1 ≤ now + ttl) (h2 : now2 ≤ now + ttl)
    (e : Email) (r r2 : DecryptReply) (hr : r.status = "success") :
    (get_key store1 now1 keyId).1 = Except.ok key ∧
    (∃ r1 : QuantumKeyRecord, ((get_key store1 now1 keyId).2).find keyId = some r1 ∧
      r1.usage_count = 1 ∧ r1.max_usage = 1) ∧
    (get_key ((get_key store1 now1 keyId).2) now2 keyId).1 =
      Except.error KeyError.KeyExhausted ∧
    (get_key ((get_key store1 now1 keyId).2) now2 keyId).2 = (get_key store1 now1 keyId).2 ∧
    (∀ (s : KeyStore) (n : Nat) (kid : String) (err : KeyError),
      (get_key s n kid).1 = Except.error err → (get_key s n kid).2 = s) ∧
    (openEmail e r).email.decrypted = true ∧
    (∀ e2 : Email, e2.decrypted = true →
      openEmail e2 r2 = { email := e2, requestIssued := false,
                          display := Display.alreadyDecrypted }) := by
  cases hfind : KeyStore.find store keyId with
  | some r0 =>
      rw [store_key, hfind] at hstore
      simp at hstore
  | none =>
      rw [store_key, hfind] at hstore
      simp at hstore
      subst hstore
      have hg1 := get_key_cons_fresh store keyId
        { key := key, created_at := now, expires_at := now + ttl, usage_count := 0,
          max_usage := 1, metadata := metadata } now1 (Nat.not_lt.2 h1)
        (Nat.not_succ_le_zero 0)
      rw [hg1]
      have hg2 := get_key_cons_exhausted store keyId
        { key := key, created_at := now, expires_at := now + ttl, usage_count := 1,
          max_usage := 1, metadata := metadata } now2 (Nat.not_lt.2 h2) (Nat.le_refl 1)
      refine ⟨rfl,
        ⟨{ key := key, created_at := now, expires_at := now + ttl, usage_count := 1,
           max_usage := 1, metadata := metadata }, by simp [KeyStore.find], rfl, rfl⟩,
        ?_, ?_, ?_, ?_, ?_⟩
      · rw [hg2]
      · rw [hg2]
      · exact get_key_no_mutation_on_failure
      · unfold openEmail
        by_cases hd : e.decrypted = true
        · rw [if_pos hd]
          exact hd
        · rw [if_neg hd, if_pos hr]
      · intro e2 hd
        unfold openEmail
        rw [if_pos hd]

/-- Witness: C1 evaluated on an empty store, the key `[1, 2, 3]` stored
under `"k1"` with a 100-tick TTL, read at ticks 50 and 60, and a fresh
inbox email opened against a success reply. -/
theorem get_key_one_time_single_use_witness :
    (get_key wStore1 50 "k1").1 = Except.ok [1, 2, 3] ∧
    (get_key ((get_key wStore1 50 "k1").2) 60 "k1").1 = Except.error KeyError.KeyExhausted ∧
    (openEmail wEmailNew wReplyOk).email.decrypted = true := by
  have T := get_key_one_time_single_use [] wStore1 0 50 60 "k1" [1, 2, 3] [] 100
    rfl (by omega) (by omega) wEmailNew wReplyOk wReplyFail rfl
  exact ⟨T.1, T.2.2.1, T.2.2.2.2.2.1⟩

/-- C2: for every plaintext, every byte-valued quantum key, every security
level, every draw of fresh randomness and every matching asymmetric key
pair, decrypting the ciphertext produced by `encrypt` with the metadata it
returned recovers the plaintext exactly. -/
theorem encrypt_decrypt_round_trip (pt qk : List Nat) (level : SecurityLevel)
    (rng : FreshRandom) (pub : RSAPublicKey) (priv : RSAPrivateKey)
    (ct : List Nat) (md : EncMetadata)
    (hpair : RSAPair pub priv)
    (hqk : ∀ b ∈ qk, b < 256) (heph : ∀ b ∈ rng.ephemeral, b < 256)
    (henc : encrypt pt qk level rng (some pub) = Except.ok (ct, md)) :
    decrypt ct qk md (some priv) = Except.ok pt := by
  cases level with
  | basic =>
      simp [encrypt] at henc
      obtain ⟨hct, hmd⟩ := henc
      subst hct
      subst hmd
      simp [decrypt, xorCycle_involution]
  | standard =>
      simp [encrypt, aeadEncrypt] at henc
      obtain ⟨hct, hmd⟩ := henc
      subst hct
      subst hmd
      simp [decrypt, aeadDecrypt, streamXor_involution]
  | high =>
      simp [encrypt, aeadEncrypt] at henc
      obtain ⟨hct, hmd⟩ := henc
      subst hct
      subst hmd
      simp [decrypt, aeadDecrypt, streamXor_involution]
  | maximum =>
      simp [encrypt, aeadEncrypt] at henc
      obtain ⟨hct, hmd⟩ := henc
      subst hct
      subst hmd
      have hcomb : ∀ b ∈ List.zipWith HXor.hXor rng.ephemeral qk, b < 256 :=
        zipWith_xor_bytes_lt _ _ heph hqk
      have hrsa := rsa_list_round_trip pub priv hpair _ hcomb
      simp [decrypt, aeadDecrypt, hrsa, streamXor_involution]

set_option maxRecDepth 40000 in
/-- Witness: C2 evaluated at the Maximum level on the concrete plaintext
`wPt`, quantum key `wQk`, randomness `wRng` and the toy key pair, via the
concrete ciphertext and metadata `wCtMd`. -/
theorem encrypt_decrypt_round_trip_witness :
    decrypt wCtMd.1 wQk wCtMd.2 (some wPriv) = Except.ok wPt :=
  encrypt_decrypt_round_trip wPt wQk SecurityLevel.maximum wRng wPub wPriv wCtMd.1 wCtMd.2
    (by decide) (by decide) (by decide) rfl

end QuantCrypt
